import Mathlib

/-!
Verification of the gemini-agent pipeline (v3 direct-API variant).

The definitions below are a shallow embedding of the TypeScript sources:
`src/agents/index.ts` (retry wrapper, coordinator/researcher/writer stages,
content generation and streaming), `src/ai.ts` (memoized client
initialization) and `index.ts` (CLI driver).  Asynchronous operations are
modelled as functions from an invocation index to a result; thrown JS
errors are modelled with `Except`; JS `undefined`/optional fields with
`Option`.
-/

namespace GeminiAgent

/-- A JS error value as inspected by `isRateLimitError`: either an object
carrying optional numeric `status` and `code` fields, or any non-object
value (string, number, ...). -/
inductive JsError where
  | obj (status : Option Int) (code : Option Int) : JsError
  | nonObj : JsError
  deriving DecidableEq, Repr

/-- Retry configuration constant `MAX_RETRIES` from `src/agents/index.ts`. -/
def MAX_RETRIES : Nat := 5

/-- Retry configuration constant `INITIAL_DELAY_MS` from `src/agents/index.ts`. -/
def INITIAL_DELAY_MS : Nat := 1000

/-- Embedding of `isRateLimitError`: true iff the error is an object whose
`status` or `code` strictly equals 429. -/
def isRateLimitError : JsError → Bool
  | .obj status code => status == some 429 || code == some 429
  | .nonObj => false

/-- Observable outcome of a `withRetry` run: the final result (`Except.error
none` models `throw lastError` with `lastError` still `undefined`, which is
unreachable for `MAX_RETRIES > 0`), the number of invocations of the wrapped
operation, and the list of back-off waits (in ms) in the order they were
performed. -/
structure RetryOutcome (α : Type) where
  result : Except (Option JsError) α
  calls : Nat
  waits : List Nat
  deriving Repr

/-- One pass of the `for (let attempt = 0; attempt < MAX_RETRIES; attempt++)`
loop body of `withRetry`, recursing on the remaining number of loop
iterations (`fuel = MAX_RETRIES - attempt` at every call from `withRetry`).
`fn i` is the result of the `(i+1)`-th invocation of the wrapped operation.
When the fuel is exhausted the loop falls through and throws `lastError`. -/
def withRetryLoop {α : Type} (fn : Nat → Except JsError α) :
    Nat → Nat → Option JsError → RetryOutcome α
  | 0, _, lastError => ⟨.error lastError, 0, []⟩
  | fuel + 1, attempt, _ =>
    match fn attempt with
    | .ok v => ⟨.ok v, 1, []⟩
    | .error e =>
      if isRateLimitError e then
        if attempt < MAX_RETRIES - 1 then
          let delay := INITIAL_DELAY_MS * 2 ^ attempt
          let rest := withRetryLoop fn fuel (attempt + 1) (some e)
          ⟨rest.result, rest.calls + 1, delay :: rest.waits⟩
        else
          let rest := withRetryLoop fn fuel (attempt + 1) (some e)
          ⟨rest.result, rest.calls + 1, rest.waits⟩
      else
        ⟨.error (some e), 1, []⟩

/-- Embedding of `withRetry`: run the loop from `attempt = 0` with
`lastError` undefined. -/
def withRetry {α : Type} (fn : Nat → Except JsError α) : RetryOutcome α :=
  withRetryLoop fn MAX_RETRIES 0 none

/-! ### Model responses (`@google/genai` shapes consumed by the code) -/

/-- One part of a model response; only the optional `text` field is read. -/
structure ResponsePart where
  text : Option String
  deriving Repr, DecidableEq

/-- The `content` object of a candidate, with its optional `parts` array. -/
structure ContentObj where
  parts : Option (List ResponsePart)
  deriving Repr, DecidableEq

/-- The `web` field of a grounding chunk: optional `uri` and `title`. -/
structure WebSource where
  uri : Option String
  title : Option String
  deriving Repr, DecidableEq

/-- One grounding chunk, with its optional `web` field. -/
structure GroundingChunk where
  web : Option WebSource
  deriving Repr, DecidableEq

/-- Grounding metadata, with its optional `groundingChunks` array. -/
structure GroundingMetadata where
  groundingChunks : Option (List GroundingChunk)
  deriving Repr, DecidableEq

/-- A response candidate: optional `content` and optional `groundingMetadata`. -/
structure Candidate where
  content : Option ContentObj
  groundingMetadata : Option GroundingMetadata
  deriving Repr, DecidableEq

/-- A full (or streamed chunk of a) model response, with its optional
`candidates` array. -/
structure GenerateContentResponse where
  candidates : Option (List Candidate)
  deriving Repr, DecidableEq

/-- `response.candidates?.[0]` -/
def candidateOf (r : GenerateContentResponse) : Option Candidate :=
  r.candidates.bind List.head?

/-- `candidate?.content?.parts` -/
def chunkParts (r : GenerateContentResponse) : Option (List ResponsePart) :=
  ((candidateOf r).bind Candidate.content).bind ContentObj.parts

/-- Embedding of the text extraction in `generateContent`:
`candidate?.content?.parts?.map((p) => p.text || "").join("") || ""`. -/
def extractText (r : GenerateContentResponse) : String :=
  ((chunkParts r).map
      (fun ps => String.join (ps.map (fun p => p.text.getD "")))).getD ""

/-- What `generateContent` returns: the extracted text and
`candidate?.groundingMetadata`. -/
structure GenResult where
  text : String
  groundingMetadata : Option GroundingMetadata
  deriving Repr, DecidableEq

/-- Embedding of the response handling of `generateContent` (the request
itself is an external network call; its response is the parameter). -/
def generateContentResult (r : GenerateContentResponse) : GenResult :=
  { text := extractText r
    groundingMetadata := (candidateOf r).bind Candidate.groundingMetadata }

/-! ### Streaming (`streamContent`) -/

/-- One iteration of the inner `for (const part of parts)` loop of
`streamContent`: append `part.text` to the accumulator when it is truthy
(present and non-empty). -/
def partStep (a : String) (p : ResponsePart) : String :=
  match p.text with
  | none => a
  | some t => if t = "" then a else a ++ t

/-- One iteration of the outer `for await (const chunk of stream)` loop of
`streamContent`. -/
def chunkStep (acc : String) (c : GenerateContentResponse) : String :=
  match chunkParts c with
  | none => acc
  | some ps => ps.foldl partStep acc

/-- Embedding of `streamContent`: the accumulated `fullText` after consuming
the whole stream (modelled as the list of chunks in arrival order). -/
def streamContent (chunks : List GenerateContentResponse) : String :=
  chunks.foldl chunkStep ""

/-- The text fragment a part contributes to the stream's `onText` events:
`part.text` when truthy, nothing otherwise. -/
def partFragment (p : ResponsePart) : Option String :=
  match p.text with
  | none => none
  | some t => if t = "" then none else some t

/-- The text fragments one chunk emits via `onText`, in order. -/
def chunkFragments (c : GenerateContentResponse) : List String :=
  match chunkParts c with
  | none => []
  | some ps => ps.filterMap partFragment

/-- All text fragments of the stream in arrival order. -/
def streamFragments (chunks : List GenerateContentResponse) : List String :=
  (chunks.map chunkFragments).flatten

/-- Embedding of `runWriter`: it builds the prompt from the findings and
returns the accumulated string from `streamContent` unchanged (`stream` is
the model's streamed response to that prompt). -/
def runWriter (topic : String) (findings : List (String × String))
    (stream : List GenerateContentResponse)  : String :=
  streamContent stream

/-- The `context` string `runWriter` builds from the findings (kept for
completeness of the embedding). -/
def writerContext (findings : List (String × String)) : String :=
  String.intercalate "\n\n---\n\n"
    (findings.map (fun d => "### Question: " ++ d.1 ++ "\n\nFindings:\n" ++ d.2))

/-! ### Coordinator (`runCoordinator` and the zod schema) -/

/-- A JSON value, as produced by `JSON.parse`.  Object fields are listed in
insertion order; JS keeps the last occurrence of a duplicated key. -/
inductive Json where
  | null : Json
  | bool (b : Bool) : Json
  | num (n : Int) : Json
  | str (s : String) : Json
  | arr (elems : List Json) : Json
  | obj (fields : List (String × Json)) : Json
  deriving Repr

/-- Field access on a JS object built by `JSON.parse`: the last binding of
the key wins. -/
def jsField (fields : List (String × Json)) (key : String) : Option Json :=
  ((fields.filter (fun f => f.1 == key)).map Prod.snd).getLast?

/-- zod `z.string()` applied to a JSON value. -/
def parseStringJson : Json → Option String
  | .str s => some s
  | _ => none

/-- zod `z.array(z.string())` applied to a JSON value. -/
def parseStringArrayJson : Json → Option (List String)
  | .arr xs => xs.mapM parseStringJson
  | _ => none

/-- The coordinator's structured output type (`ResearchPlan`). -/
structure ResearchPlan where
  questions : List String
  rationale : String
  deriving Repr, DecidableEq

/-- Embedding of `researchPlanSchema.parse`: an object with a `questions`
field that is an array of strings and a `rationale` field that is a string
(zod object schemas strip unknown keys and require the declared ones). -/
def researchPlanSchemaParse (j : Json) : Option ResearchPlan :=
  match j with
  | .obj fields =>
    match jsField fields "questions", jsField fields "rationale" with
    | some qj, some rj =>
      match parseStringArrayJson qj, parseStringJson rj with
      | some qs, some r => some ⟨qs, r⟩
      | _, _ => none
    | _, _ => none
  | _ => none

/-- Embedding of `runCoordinator`'s result handling: `JSON.parse(text)`
followed by `researchPlanSchema.parse`.  The argument is the outcome of
`JSON.parse` on the model's text (`none` models a thrown parse error, which
propagates as a failure). -/
def runCoordinator (parsedResponse : Option Json) : Option ResearchPlan :=
  parsedResponse.bind researchPlanSchemaParse

/-- Whether a JSON value is a string. -/
def isStringJson : Json → Bool
  | .str _ => true
  | _ => false

/-- Whether a JSON value is an array of strings. -/
def isStringArrayJson : Json → Bool
  | .arr xs => xs.all isStringJson
  | _ => false

/-- Spec-side shape validator, written from the spec's words: the parsed
JSON must be an object whose `questions` field is an array of strings and
whose `rationale` field is a string. -/
def planShapeOk (j : Json) : Bool :=
  match j with
  | .obj fields =>
    (match jsField fields "questions" with
     | some qj => isStringArrayJson qj
     | none => false) &&
    (match jsField fields "rationale" with
     | some rj => isStringJson rj
     | none => false)
  | _ => false

/-! ### Researcher (`runResearcher`) -/

/-- One entry of a `ResearchResult`'s `sources` array. -/
structure SourceEntry where
  title : Option String
  uri : Option String
  deriving Repr, DecidableEq

/-- The researcher's result type (`ResearchResult`). -/
structure ResearchResult where
  question : String
  findings : String
  sources : List SourceEntry
  deriving Repr, DecidableEq

/-- One iteration of the `for (const chunk of meta.groundingChunks)` loop
of `runResearcher`: push `{title, uri}` when the chunk has a `web` field. -/
def sourceStep (acc : List SourceEntry) (c : GroundingChunk) : List SourceEntry :=
  match c.web with
  | some w => acc ++ [⟨w.title, w.uri⟩]
  | none => acc

/-- Embedding of the source extraction in `runResearcher`: guarded by
`groundingMetadata` being an object and `meta.groundingChunks?.length`
being truthy (array present and non-empty). -/
def extractSources (groundingMetadata : Option GroundingMetadata) : List SourceEntry :=
  match groundingMetadata with
  | none => []
  | some meta =>
    match meta.groundingChunks with
    | none => []
    | some chunks =>
      if chunks.length ≠ 0 then chunks.foldl sourceStep [] else []

/-- Embedding of `runResearcher` given the model's response to the
question's request. -/
def runResearcher (question : String) (response : GenerateContentResponse) : ResearchResult :=
  let g := generateContentResult response
  { question := question
    findings := g.text
    sources := extractSources g.groundingMetadata }

/-! ### Parallel fan-out (`Promise.all` in `main`) -/

/-- Replay of concurrent task completions: each completed task index `j`
writes its value into slot `j`; `order` is the completion order. -/
def fillSlots {k : Nat} {α : Type} (tasks : Fin k → α) :
    List (Fin k) → (Fin k → Option α) → (Fin k → Option α)
  | [], slots => slots
  | j :: rest, slots =>
      fillSlots tasks rest (fun i => if i = j then some (tasks j) else slots i)

/-- `Promise.all` over `k` concurrently pending tasks whose completions
arrive in `order`: it resolves with the slot values in index order once
every slot is filled. -/
def promiseAllSched {k : Nat} {α : Type} (tasks : Fin k → α)
    (order : List (Fin k)) : Option (List α) :=
  (List.finRange k).mapM (fillSlots tasks order (fun _ => none))

/-- Embedding of the researcher fan-out in `main`:
`Promise.all(plan.questions.map(async (question) => runResearcher(question)))`.
`respond` gives the model's response for each question and `order` is the
order in which the concurrent requests happen to complete. -/
def runResearcherStage (questions : List String)
    (respond : String → GenerateContentResponse)
    (order : List (Fin questions.length)) : Option (List ResearchResult) :=
  promiseAllSched
    (fun i => runResearcher (questions.get i) (respond (questions.get i))) order

/-! ### CLI driver (`main` in `index.ts`) -/

/-- The characters `String.prototype.trim` removes (ECMAScript WhiteSpace
and LineTerminator code points). -/
def isJsWhitespace (c : Char) : Bool :=
  c == ' ' || c == '\t' || c == '\n' || c == '\r' || c == '\x0b' || c == '\x0c' ||
  c == ' ' || c == ' ' || c == ' ' || c == ' ' ||
  c == ' ' || c == ' ' || c == ' ' || c == ' ' ||
  c == ' ' || c == ' ' || c == ' ' || c == ' ' ||
  c == ' ' || c == ' ' || c == ' ' || c == ' ' ||
  c == ' ' || c == '　' || c == '﻿'

/-- JS `topic.trim()`: remove leading and trailing whitespace. -/
def jsTrim (s : String) : String :=
  String.mk (((s.data.dropWhile isJsWhitespace).reverse.dropWhile isJsWhitespace).reverse)

/-- The topic `main` ends up with: the `--topic` flag when it is truthy
(present and non-empty), otherwise the interactively prompted line. -/
def resolvedTopic (topicFlag : Option String) (promptInput : String) : String :=
  match topicFlag with
  | some t => if t = "" then promptInput else t
  | none => promptInput

/-- Abstract behavior of the pipeline body of `main`'s `try` block: how many
network operations it starts and whether it throws. -/
structure PipelineBehavior where
  networkCalls : Nat
  failed : Bool

/-- What `main` observably does: the process exit code and the number of
network operations started before exiting. -/
structure MainObs where
  exitCode : Nat
  networkCalls : Nat
  deriving Repr, DecidableEq

/-- Embedding of `main`: resolve the topic; if its trim is empty, exit 1
before the `try` block (so before any client initialization or model
request); otherwise run the pipeline and, whether it succeeds or throws
(the `catch` only prints), exit 0 from the `finally` block. -/
def mainRun (topicFlag : Option String) (promptInput : String)
    (pipeline : String → PipelineBehavior) : MainObs :=
  let topic := resolvedTopic topicFlag promptInput
  if jsTrim topic = "" then
    { exitCode := 1, networkCalls := 0 }
  else
    let run := pipeline topic
    { exitCode := 0, networkCalls := run.networkCalls }

/-! ### Client initialization (`initializeClient` in `src/ai.ts`) -/

/-- The module-level mutable state of `src/ai.ts`: the cached
`contentGenerator` and `generatorConfig` (both start as `null`). -/
structure ClientState (G C : Type) where
  contentGenerator : Option G
  generatorConfig : Option C
  deriving Repr, DecidableEq

/-- The external creation calls `initializeClient` makes:
`createContentGeneratorConfig` and `createContentGenerator` (the latter
receives the created config); either may throw. -/
structure InitEnv (G C E : Type) where
  createConfigResult : Except E C
  createGeneratorResult : C → Except E G

/-- Outcome of one `initializeClient` call: its result (or thrown error),
the module state afterwards, and how many creation calls it made. -/
structure InitOutcome (G C E : Type) where
  result : Except E (G × C)
  state : ClientState G C
  creations : Nat

/-- Embedding of `initializeClient`: return the cached pair when both
module variables are set; otherwise create the config (assigning the module
variable), then the generator, and cache both. -/
def initializeClient {G C E : Type} (env : InitEnv G C E)
    (st : ClientState G C) : InitOutcome G C E :=
  match st.contentGenerator, st.generatorConfig with
  | some g, some c => ⟨.ok (g, c), st, 0⟩
  | _, _ =>
    match env.createConfigResult with
    | .error e => ⟨.error e, st, 1⟩
    | .ok cfg =>
      match env.createGeneratorResult cfg with
      | .error e => ⟨.error e, ⟨st.contentGenerator, some cfg⟩, 2⟩
      | .ok gen => ⟨.ok (gen, cfg), ⟨some gen, some cfg⟩, 2⟩

/-- The grounding chunks a response carries, as read by `runResearcher`
(`[]` when there is no grounding metadata or no chunks array). -/
def responseGroundingChunks (r : GenerateContentResponse) : List GroundingChunk :=
  (((candidateOf r).bind Candidate.groundingMetadata).bind
    GroundingMetadata.groundingChunks).getD []

/-! ### Concrete instances used as witnesses -/

/-- A parsed model response whose `questions` array is empty but which
validates against `researchPlanSchema`. -/
def emptyQuestionsJson : Json :=
  .obj [("questions", .arr []), ("rationale", .str "strategy")]

/-- A creation environment whose two creation calls succeed. -/
def envA : InitEnv Nat Nat Unit :=
  ⟨.ok 7, fun _ => .ok 5⟩

/-- A creation environment whose creation calls all throw. -/
def envB : InitEnv Nat Nat Unit :=
  ⟨.error (), fun _ => .error ()⟩

/-- An operation that fails with a rate-limit error on every invocation. -/
def always429 : Nat → Except JsError Unit :=
  fun _ => .error (.obj (some 429) none)

/-- An operation failing with a rate-limit error on its first two
invocations, then succeeding. -/
def twoFailsThenOk : Nat → Except JsError Nat :=
  fun i => if i < 2 then .error (.obj none (some 429)) else .ok 7

/-! ### Theorems about the retry wrapper -/

/-- Claim C1 counterexample: on an operation that fails with a rate-limit
error on every invocation, `withRetry` invokes it 5 times in total (so only
4 retries, not the claimed 5) and performs exactly 4 back-off waits, 1s,
2s, 4s and 8s — the claimed 5-delay sequence ending in 16s never occurs.
The last error still propagates. -/
theorem withRetry_no_fifth_retry :
    (withRetry always429).calls = 5 ∧
    (withRetry always429).waits = [1000, 2000, 4000, 8000] ∧
    (withRetry always429).waits.length = 4 ∧
    (withRetry always429).result = .error (some (.obj (some 429) none)) :=
  ⟨rfl, rfl, rfl, rfl⟩

/-- Claim C1 (amended): when every one of the 5 permitted invocations fails
with a rate-limit error, `withRetry` invokes the operation exactly 5 times,
waits `1000ms * 2^attempt` before each of the 4 retries (delays 1s, 2s, 4s,
8s), and propagates the error of the last invocation. -/
theorem withRetry_exhaustion {α : Type} (fn : Nat → Except JsError α)
    (e : Nat → JsError)
    (herr : ∀ i, i < 5 → fn i = .error (e i))
    (hrate : ∀ i, i < 5 → isRateLimitError (e i) = true) :
    withRetry fn = ⟨.error (some (e 4)), 5, [1000, 2000, 4000, 8000]⟩ := by
  have h0 := herr 0 (by norm_num); have h1 := herr 1 (by norm_num)
  have h2 := herr 2 (by norm_num); have h3 := herr 3 (by norm_num)
  have h4 := herr 4 (by norm_num)
  have r0 := hrate 0 (by norm_num); have r1 := hrate 1 (by norm_num)
  have r2 := hrate 2 (by norm_num); have r3 := hrate 3 (by norm_num)
  have r4 := hrate 4 (by norm_num)
  simp [withRetry, withRetryLoop, MAX_RETRIES, INITIAL_DELAY_MS,
    h0, h1, h2, h3, h4, r0, r1, r2, r3, r4]

/-- Witness for `withRetry_exhaustion` at the always-rate-limited
operation. -/
theorem withRetry_exhaustion_witness :
    withRetry always429 =
      ⟨.error (some (.obj (some 429) none)), 5, [1000, 2000, 4000, 8000]⟩ :=
  withRetry_exhaustion always429 (fun _ => .obj (some 429) none)
    (fun _ _ => rfl) (fun _ _ => rfl)

/-- Claim C2: when the first invocation fails with a non-rate-limit error,
`withRetry` invokes the operation exactly once, performs no back-off wait,
and propagates that error unchanged. -/
theorem withRetry_non_rate_limit {α : Type} (fn : Nat → Except JsError α)
    (e : JsError) (h0 : fn 0 = .error e)
    (hnr : isRateLimitError e = false) :
    withRetry fn = ⟨.error (some e), 1, []⟩ := by
  simp [withRetry, withRetryLoop, MAX_RETRIES, h0, hnr]

/-- Witness for `withRetry_non_rate_limit` at an operation throwing a
non-object error. -/
theorem withRetry_non_rate_limit_witness :
    withRetry (fun _ => (.error .nonObj : Except JsError Nat)) =
      ⟨.error (some .nonObj), 1, []⟩ :=
  withRetry_non_rate_limit _ .nonObj rfl rfl

/-- Claim C3: when the operation fails with a rate-limit error on its first
`N < 5` invocations and succeeds on invocation `N + 1`, `withRetry` returns
the success value after `N + 1` invocations, its back-off waits are
`1000ms * 2^a` for `a = 0..N-1` in order, and the total time waited is
their sum. -/
theorem withRetry_eventual_success {α : Type} (fn : Nat → Except JsError α)
    (e : Nat → JsError) (v : α) (N : Nat) (hN : N < 5)
    (herr : ∀ i, i < N → fn i = .error (e i))
    (hrate : ∀ i, i < N → isRateLimitError (e i) = true)
    (hok : fn N = .ok v) :
    (withRetry fn).result = .ok v ∧
    (withRetry fn).calls = N + 1 ∧
    (withRetry fn).waits = (List.range N).map (fun a => 1000 * 2 ^ a) ∧
    (withRetry fn).waits.sum = ((List.range N).map (fun a => 1000 * 2 ^ a)).sum := by
  interval_cases N <;>
    simp_all [withRetry, withRetryLoop, MAX_RETRIES, INITIAL_DELAY_MS,
      List.range_succ]

/-- Witness for `withRetry_eventual_success`: two rate-limited failures and
then success, giving waits 1s and 2s. -/
theorem withRetry_eventual_success_witness :
    (withRetry twoFailsThenOk).result = .ok 7 ∧
    (withRetry twoFailsThenOk).calls = 3 ∧
    (withRetry twoFailsThenOk).waits = (List.range 2).map (fun a => 1000 * 2 ^ a) ∧
    (withRetry twoFailsThenOk).waits.sum = ((List.range 2).map (fun a => 1000 * 2 ^ a)).sum :=
  withRetry_eventual_success twoFailsThenOk (fun _ => .obj none (some 429)) 7 2
    (by norm_num)
    (fun i hi => by interval_cases i <;> rfl)
    (fun i hi => rfl) rfl

/-! ### Theorems about streaming accumulation -/

/-- Folding string append from any accumulator appends the join. -/
theorem string_foldl_append (l : List String) (a : String) :
    List.foldl (fun r s => r ++ s) a l = a ++ String.join l := by
  induction l generalizing a with
  | nil => simp [String.join]
  | cons s t ih =>
    rw [List.foldl_cons, ih]
    conv_rhs => unfold String.join
    rw [List.foldl_cons, ih, String.empty_append, String.append_assoc]

/-- `String.join` distributes over list append. -/
theorem string_join_append (l1 l2 : List String) :
    String.join (l1 ++ l2) = String.join l1 ++ String.join l2 := by
  conv_lhs => unfold String.join
  rw [List.foldl_append, string_foldl_append]
  rfl

/-- One part contributes exactly its fragment (or nothing) to `fullText`. -/
theorem partStep_fragment (a : String) (p : ResponsePart) :
    partStep a p = a ++ (partFragment p).getD "" := by
  unfold partStep partFragment
  cases p.text with
  | none => simp [String.append_empty]
  | some t =>
    by_cases ht : t = "" <;> simp [ht, String.append_empty]

/-- The inner parts loop appends the join of the parts' fragments. -/
theorem foldl_partStep (ps : List ResponsePart) (a : String) :
    ps.foldl partStep a = a ++ String.join (ps.filterMap partFragment) := by
  induction ps generalizing a with
  | nil => simp [String.join, String.append_empty]
  | cons p t ih =>
    rw [List.foldl_cons, ih, partStep_fragment]
    cases hp : partFragment p with
    | none => simp [List.filterMap_cons, hp, String.append_empty]
    | some f =>
      have : String.join (f :: t.filterMap partFragment) =
          f ++ String.join (t.filterMap partFragment) := by
        conv_lhs => unfold String.join
        rw [List.foldl_cons, string_foldl_append, String.empty_append]
      simp [List.filterMap_cons, hp, this, String.append_assoc]

/-- One chunk appends the join of its fragments. -/
theorem chunkStep_fragments (acc : String) (c : GenerateContentResponse) :
    chunkStep acc c = acc ++ String.join (chunkFragments c) := by
  unfold chunkStep chunkFragments
  cases chunkParts c with
  | none => simp [String.join, String.append_empty]
  | some ps => exact foldl_partStep ps acc

/-- The outer chunks loop appends the join of all fragments. -/
theorem foldl_chunkStep (chunks : List GenerateContentResponse) (acc : String) :
    chunks.foldl chunkStep acc = acc ++ String.join (streamFragments chunks) := by
  induction chunks generalizing acc with
  | nil => simp [streamFragments, String.join, String.append_empty]
  | cons c t ih =>
    rw [List.foldl_cons, ih, chunkStep_fragments]
    have : streamFragments (c :: t) = chunkFragments c ++ streamFragments t := by
      simp [streamFragments]
    rw [this, string_join_append, String.append_assoc]

/-- Claim C6: the string the writer stage returns equals the concatenation,
in arrival order, of all text fragments streamed by the model (each
fragment being a truthy `part.text`, exactly the strings passed to
`onText`). -/
theorem runWriter_stream_concat (topic : String)
    (findings : List (String × String))
    (stream : List GenerateContentResponse) :
    runWriter topic findings stream = String.join (streamFragments stream) := by
  unfold runWriter streamContent
  rw [foldl_chunkStep, String.empty_append]

/-! ### Theorems about the researcher stage -/

/-- The source-extraction loop pushes one entry per chunk with a `web`
field, in chunk order. -/
theorem sourceStep_foldl (chunks : List GroundingChunk) (acc : List SourceEntry) :
    chunks.foldl sourceStep acc =
      acc ++ chunks.filterMap
        (fun c => c.web.map (fun w => ⟨w.title, w.uri⟩)) := by
  induction chunks generalizing acc with
  | nil => simp
  | cons c t ih =>
    rw [List.foldl_cons, ih]
    cases hw : c.web <;> simp [sourceStep, hw]

/-- `extractSources` keeps exactly the chunks carrying a `web` field. -/
theorem extractSources_eq (gm : Option GroundingMetadata) :
    extractSources gm =
      ((gm.bind GroundingMetadata.groundingChunks).getD []).filterMap
        (fun c => c.web.map (fun w => ⟨w.title, w.uri⟩)) := by
  cases gm with
  | none => rfl
  | some meta =>
    cases hc : meta.groundingChunks with
    | none => simp [extractSources, hc]
    | some chunks =>
      cases chunks with
      | nil => simp [extractSources, hc]
      | cons c t =>
        have he : extractSources (some meta) = (c :: t).foldl sourceStep [] := by
          simp [extractSources, hc]
        rw [he, sourceStep_foldl]
        simp [hc]

/-- Claim C10: the researcher returns the question and extracted findings
unchanged, and its `sources` list has exactly one `{title, uri}` entry per
grounding chunk with a `web` field, in chunk order; with no grounding
metadata or no chunks this list is empty. -/
theorem runResearcher_sources (question : String)
    (response : GenerateContentResponse) :
    (runResearcher question response).question = question ∧
    (runResearcher question response).findings = extractText response ∧
    (runResearcher question response).sources =
      (responseGroundingChunks response).filterMap
        (fun c => c.web.map (fun w => ⟨w.title, w.uri⟩)) := by
  refine ⟨rfl, rfl, ?_⟩
  show extractSources (generateContentResult response).groundingMetadata = _
  rw [extractSources_eq]
  rfl

/-! ### Theorems about the parallel fan-out -/

/-- Replaying completions fills slot `i` with task `i`'s value exactly when
`i` completed. -/
theorem fillSlots_apply {k : Nat} {α : Type} (tasks : Fin k → α)
    (order : List (Fin k)) (slots : Fin k → Option α) (i : Fin k) :
    fillSlots tasks order slots i =
      if i ∈ order then some (tasks i) else slots i := by
  induction order generalizing slots with
  | nil => simp [fillSlots]
  | cons j rest ih =>
    rw [fillSlots, ih]
    by_cases hmem : i ∈ rest
    · simp [hmem]
    · by_cases hij : i = j
      · subst hij; simp [hmem]
      · simp [hmem, hij]

/-- `mapM` over `Option` succeeds pointwise. -/
theorem mapM_option_eq_map {α β : Type} (f : α → Option β) (g : α → β)
    (l : List α) (h : ∀ x ∈ l, f x = some (g x)) :
    l.mapM f = some (l.map g) := by
  induction l with
  | nil => rfl
  | cons a t ih =>
    rw [List.mapM_cons, h a (by simp), ih (fun x hx => h x (by simp [hx]))]
    rfl

/-- `Promise.all` resolves with the values in task-index order whenever
every task completed, whatever the completion order was. -/
theorem promiseAllSched_complete {k : Nat} {α : Type} (tasks : Fin k → α)
    (order : List (Fin k)) (hall : ∀ i : Fin k, i ∈ order) :
    promiseAllSched tasks order = some (List.ofFn tasks) := by
  unfold promiseAllSched
  rw [mapM_option_eq_map _ tasks _
    (fun i _ => by rw [fillSlots_apply]; simp [hall i])]
  rw [List.ofFn_eq_map]

/-- Claim C5: with a plan of `K` questions, the researcher stage produces
exactly `K` results, and the `i`-th result is the researcher's result for
the `i`-th question (so result order equals question order), for every
completion order of the concurrent requests. -/
theorem researcherStage_order (questions : List String)
    (respond : String → GenerateContentResponse)
    (order : List (Fin questions.length))
    (hall : ∀ i : Fin questions.length, i ∈ order) :
    ∃ results : List ResearchResult,
      runResearcherStage questions respond order = some results ∧
      results.length = questions.length ∧
      ∀ i : Fin questions.length,
        results[i.val]? =
          some (runResearcher (questions.get i) (respond (questions.get i))) ∧
        results[i.val]?.map ResearchResult.question = some (questions.get i) := by
  refine ⟨_, promiseAllSched_complete _ order hall, ?_, ?_⟩
  · simp
  · intro i
    constructor
    · simp [List.getElem?_ofFn, List.ofFnNthVal, i.isLt]
    · simp [List.getElem?_ofFn, List.ofFnNthVal, i.isLt, runResearcher]

/-- Witness for `researcherStage_order`: two questions whose requests
complete in reverse order. -/
theorem researcherStage_order_witness :
    ∃ results : List ResearchResult,
      runResearcherStage ["q1", "q2"] (fun _ => ⟨none⟩)
          [⟨1, by decide⟩, ⟨0, by decide⟩] = some results ∧
      results.length = (["q1", "q2"] : List String).length ∧
      ∀ i : Fin (["q1", "q2"] : List String).length,
        results[i.val]? =
          some (runResearcher ((["q1", "q2"] : List String).get i)
            ((fun _ => (⟨none⟩ : GenerateContentResponse))
              ((["q1", "q2"] : List String).get i))) ∧
        results[i.val]?.map ResearchResult.question =
          some ((["q1", "q2"] : List String).get i) :=
  researcherStage_order ["q1", "q2"] (fun _ => ⟨none⟩)
    [⟨1, by decide⟩, ⟨0, by decide⟩] (by decide)

/-! ### Theorems about the CLI driver -/

/-- A string of whitespace characters trims to the empty string. -/
theorem jsTrim_all_whitespace (s : String)
    (h : s.data.all isJsWhitespace = true) : jsTrim s = "" := by
  unfold jsTrim
  have hd : s.data.dropWhile isJsWhitespace = [] := by
    rw [List.dropWhile_eq_nil_iff]
    exact fun x hx => List.all_eq_true.mp h x hx
  rw [hd]
  rfl

/-- Claim C4: when the topic `main` resolves (from the flag or the prompt)
is empty or whitespace-only, the process exits with code 1 — a non-zero
code — and starts no network operation (no client initialization, no model
request), whatever the pipeline would have done. -/
theorem main_empty_topic (topicFlag : Option String) (promptInput : String)
    (pipeline : String → PipelineBehavior)
    (h : (resolvedTopic topicFlag promptInput).data.all isJsWhitespace = true) :
    (mainRun topicFlag promptInput pipeline).exitCode = 1 ∧
    (mainRun topicFlag promptInput pipeline).networkCalls = 0 := by
  simp [mainRun, jsTrim_all_whitespace _ h]

/-- Witness for `main_empty_topic`: a whitespace-only `--topic " "` flag
with a pipeline that would have made 3 network calls. -/
theorem main_empty_topic_witness :
    (mainRun (some " ") "ignored" (fun _ => ⟨3, false⟩)).exitCode = 1 ∧
    (mainRun (some " ") "ignored" (fun _ => ⟨3, false⟩)).networkCalls = 0 :=
  main_empty_topic (some " ") "ignored" (fun _ => ⟨3, false⟩) (by decide)

/-- Claim C8: the process exit code is 1 exactly when the resolved topic
trims to the empty string, and 0 otherwise — in particular 0 both when the
pipeline succeeds and when it throws (the error is only printed), for
every pipeline behavior. -/
theorem main_exit_code (topicFlag : Option String) (promptInput : String)
    (pipeline : String → PipelineBehavior) :
    (mainRun topicFlag promptInput pipeline).exitCode =
      if jsTrim (resolvedTopic topicFlag promptInput) = "" then 1 else 0 := by
  simp only [mainRun]
  split <;> rfl

/-! ### Theorems about client initialization -/

/-- After a successful `initializeClient` call, both module variables hold
exactly the returned pair. -/
theorem initializeClient_ok_state {G C E : Type} (env : InitEnv G C E)
    (st : ClientState G C) (r : G × C) (st2 : ClientState G C) (n : Nat)
    (h : initializeClient env st = ⟨.ok r, st2, n⟩) :
    st2 = ⟨some r.1, some r.2⟩ := by
  unfold initializeClient at h
  split at h
  next g c hg hc =>
    injection h with h1 h2 h3
    injection h1 with h1
    subst h2
    subst h1
    cases st
    simp_all
  next =>
    split at h
    next e => exact absurd (congrArg InitOutcome.result h) (by simp)
    next cfg =>
      split at h
      next e => exact absurd (congrArg InitOutcome.result h) (by simp)
      next gen =>
        injection h with h1 h2 h3
        injection h1 with h1
        subst h1
        exact h2.symm

/-- Claim C9: after a first `initializeClient` call completes successfully,
a second call — under any environment, even one whose creation calls would
fail — performs no creation call, leaves the cached state unchanged and
returns the same client/config pair. -/
theorem initializeClient_memoized {G C E : Type} (env env2 : InitEnv G C E)
    (st : ClientState G C) (r : G × C) (st2 : ClientState G C) (n : Nat)
    (h : initializeClient env st = ⟨.ok r, st2, n⟩) :
    initializeClient env2 st2 = ⟨.ok r, st2, 0⟩ := by
  rw [initializeClient_ok_state env st r st2 n h]
  rfl

/-- Witness for `initializeClient_memoized`: a successful first call from
the empty state, followed by a call under an environment that throws. -/
theorem initializeClient_memoized_witness :
    initializeClient envB (⟨some 5, some 7⟩ : ClientState Nat Nat) =
      ⟨.ok (5, 7), ⟨some 5, some 7⟩, 0⟩ :=
  initializeClient_memoized envA envB ⟨none, none⟩ (5, 7) ⟨some 5, some 7⟩ 2 rfl

/-! ### Theorems about the coordinator -/

/-- `parseStringJson` succeeds exactly on JSON strings. -/
theorem parseStringJson_isSome (j : Json) :
    (parseStringJson j).isSome = isStringJson j := by
  cases j <;> rfl

/-- A successful `parseStringJson` pins its input. -/
theorem parseStringJson_eq {j : Json} {s : String}
    (h : parseStringJson j = some s) : j = .str s := by
  cases j <;> simp_all [parseStringJson]

/-- `mapM parseStringJson` succeeds exactly when every element is a
string. -/
theorem mapM_parseString_isSome (xs : List Json) :
    (xs.mapM parseStringJson).isSome = xs.all isStringJson := by
  induction xs with
  | nil => rfl
  | cons x t ih =>
    rw [List.mapM_cons]
    cases hx : parseStringJson x with
    | none =>
      have : isStringJson x = false := by rw [← parseStringJson_isSome, hx]; rfl
      simp [hx, this]
    | some s =>
      have hxs : isStringJson x = true := by rw [← parseStringJson_isSome, hx]; rfl
      cases ht : t.mapM parseStringJson with
      | none =>
        have hta : t.all isStringJson = false := by rw [← ih, ht]; rfl
        simp [hx, List.all_cons, hxs, hta]
      | some rest =>
        have hta : t.all isStringJson = true := by rw [← ih, ht]; rfl
        simp [hx, List.all_cons, hxs, hta]

/-- A successful `mapM parseStringJson` pins its input to the string
literals of its output. -/
theorem mapM_parseString_inv : ∀ (xs : List Json) (qs : List String),
    xs.mapM parseStringJson = some qs → xs = qs.map Json.str := by
  intro xs
  induction xs with
  | nil =>
    intro qs h
    simp only [List.mapM_nil] at h
    injection h with h
    rw [← h]
    rfl
  | cons x t ih =>
    intro qs h
    rw [List.mapM_cons] at h
    cases hx : parseStringJson x with
    | none => rw [hx] at h; simp at h
    | some s =>
      rw [hx] at h
      cases ht : t.mapM parseStringJson with
      | none => rw [ht] at h; simp at h
      | some rest =>
        rw [ht] at h
        simp only [Option.pure_def, Option.bind_eq_bind, Option.bind_some] at h
        injection h with h
        rw [← h, List.map_cons]
        rw [parseStringJson_eq hx, ih rest ht]

/-- A successful `parseStringArrayJson` pins its input. -/
theorem parseStringArrayJson_eq {j : Json} {qs : List String}
    (h : parseStringArrayJson j = some qs) : j = .arr (qs.map Json.str) := by
  cases j with
  | arr xs =>
    have hm : xs.mapM parseStringJson = some qs := h
    rw [mapM_parseString_inv xs qs hm]
  | null => exact absurd h (by simp [parseStringArrayJson])
  | bool b => exact absurd h (by simp [parseStringArrayJson])
  | num n => exact absurd h (by simp [parseStringArrayJson])
  | str s => exact absurd h (by simp [parseStringArrayJson])
  | obj fields => exact absurd h (by simp [parseStringArrayJson])

/-- The zod parse succeeds exactly when the spec-side shape validator
accepts the JSON. -/
theorem researchPlanSchemaParse_isSome (j : Json) :
    (researchPlanSchemaParse j).isSome = planShapeOk j := by
  cases j with
  | obj fields =>
    unfold researchPlanSchemaParse planShapeOk
    cases hq : jsField fields "questions" with
    | none => simp [hq]
    | some qj =>
      cases hr : jsField fields "rationale" with
      | none => simp [hq, hr]
      | some rj =>
        simp only [hq, hr]
        cases qj with
        | arr xs =>
          cases hrs : parseStringJson rj with
          | none =>
            have hrj : isStringJson rj = false := by
              rw [← parseStringJson_isSome, hrs]; rfl
            cases hm : parseStringArrayJson (.arr xs) <;>
              simp [hq, hr, hm, hrs, hrj]
          | some r =>
            have hrj : isStringJson rj = true := by
              rw [← parseStringJson_isSome, hrs]; rfl
            have hall : xs.all isStringJson =
                (parseStringArrayJson (Json.arr xs)).isSome := by
              rw [← mapM_parseString_isSome]; rfl
            cases hm : parseStringArrayJson (Json.arr xs) with
            | none =>
              rw [hm] at hall
              simp [hq, hr, hm, hrs, hrj, isStringArrayJson, hall]
            | some qs =>
              rw [hm] at hall
              simp [hq, hr, hm, hrs, hrj, isStringArrayJson, hall]
        | null =>
          cases hm : parseStringJson rj <;>
            simp [hq, hr, hm, parseStringArrayJson, isStringArrayJson]
        | bool b =>
          cases hm : parseStringJson rj <;>
            simp [hq, hr, hm, parseStringArrayJson, isStringArrayJson]
        | num n =>
          cases hm : parseStringJson rj <;>
            simp [hq, hr, hm, parseStringArrayJson, isStringArrayJson]
        | str s =>
          cases hm : parseStringJson rj <;>
            simp [hq, hr, hm, parseStringArrayJson, isStringArrayJson]
        | obj f2 =>
          cases hm : parseStringJson rj <;>
            simp [hq, hr, hm, parseStringArrayJson, isStringArrayJson]
  | null => rfl
  | bool b => rfl
  | num n => rfl
  | str s => rfl
  | arr es => rfl

/-- Inversion of a successful zod parse: the JSON was an object whose
`questions` field is exactly the plan's questions as string literals and
whose `rationale` field is the plan's rationale. -/
theorem researchPlanSchemaParse_inv {j : Json} {plan : ResearchPlan}
    (h : researchPlanSchemaParse j = some plan) :
    ∃ fields, j = .obj fields ∧
      jsField fields "questions" = some (.arr (plan.questions.map Json.str)) ∧
      jsField fields "rationale" = some (.str plan.rationale) := by
  cases j with
  | obj fields =>
    simp only [researchPlanSchemaParse] at h
    cases hq : jsField fields "questions" with
    | none => rw [hq] at h; simp at h
    | some qj =>
      cases hr : jsField fields "rationale" with
      | none => rw [hq, hr] at h; simp at h
      | some rj =>
        rw [hq, hr] at h
        have h2 : (match parseStringArrayJson qj, parseStringJson rj with
            | some qs, some r => some (⟨qs, r⟩ : ResearchPlan)
            | _, _ => none) = some plan := h
        cases hqs : parseStringArrayJson qj with
        | none => rw [hqs] at h2; simp at h2
        | some qs =>
          cases hrs : parseStringJson rj with
          | none => rw [hqs, hrs] at h2; simp at h2
          | some r =>
            rw [hqs, hrs] at h2
            injection h2 with h2
            refine ⟨fields, rfl, ?_, ?_⟩
            · rw [hq, ← h2, parseStringArrayJson_eq hqs]
            · rw [hr, ← h2, parseStringJson_eq hrs]
  | null => exact absurd h (by simp [researchPlanSchemaParse])
  | bool b => exact absurd h (by simp [researchPlanSchemaParse])
  | num n => exact absurd h (by simp [researchPlanSchemaParse])
  | str s => exact absurd h (by simp [researchPlanSchemaParse])
  | arr es => exact absurd h (by simp [researchPlanSchemaParse])

/-- Claim C7 counterexample: on the parsed response whose `questions` array
is empty, the coordinator does not fail — it returns a plan whose
questions list has length 0, so the returned sequence is not non-empty,
refuting the claim at this input. -/
theorem runCoordinator_empty_questions :
    runCoordinator (some emptyQuestionsJson) =
      some { questions := [], rationale := "strategy" } ∧
    ({ questions := [], rationale := "strategy" } : ResearchPlan).questions.length = 0 :=
  ⟨rfl, rfl⟩

/-- Claim C7 (amended): the coordinator fails exactly when `JSON.parse`
throws or the parsed JSON does not validate against the expected shape; on
success it returns a `ResearchPlan` whose `questions` field is the
(possibly empty) ordered sequence of the strings of the response's
`questions` array and whose `rationale` is the response's `rationale`
string. -/
theorem runCoordinator_shape (pj : Option Json) :
    ((runCoordinator pj).isSome ↔ ∃ j, pj = some j ∧ planShapeOk j = true) ∧
    (∀ plan, runCoordinator pj = some plan →
      ∃ fields, pj = some (.obj fields) ∧
        jsField fields "questions" =
          some (.arr (plan.questions.map Json.str)) ∧
        jsField fields "rationale" = some (.str plan.rationale)) := by
  constructor
  · cases pj with
    | none => simp [runCoordinator]
    | some j => simp [runCoordinator, researchPlanSchemaParse_isSome]
  · intro plan h
    cases pj with
    | none => simp [runCoordinator] at h
    | some j =>
      simp only [runCoordinator, Option.bind_some] at h
      obtain ⟨fields, hj, hq, hr⟩ := researchPlanSchemaParse_inv h
      exact ⟨fields, by rw [hj], hq, hr⟩

end GeminiAgent


namespace GeminiAgent

/-- Witness for `runCoordinator_shape` at the empty-questions response. -/
theorem runCoordinator_shape_witness :
    ((runCoordinator (some emptyQuestionsJson)).isSome ↔
      ∃ j, some emptyQuestionsJson = some j ∧ planShapeOk j = true) ∧
    (∀ plan, runCoordinator (some emptyQuestionsJson) = some plan →
      ∃ fields, some emptyQuestionsJson = some (.obj fields) ∧
        jsField fields "questions" =
          some (.arr (plan.questions.map Json.str)) ∧
        jsField fields "rationale" = some (.str plan.rationale)) :=
  runCoordinator_shape (some emptyQuestionsJson)

end GeminiAgent
